import Mathlib

/-!
Shallow embedding of the core game logic of the "Treasure Chest Roulette"
application (`src/App.tsx`, types from `src/types.ts`, click gating from
`src/components/ChestItem.tsx`), together with proofs of the specified
properties of the round generator, reveal engine, outcome resolver,
progression tracker, staleness guard and leaderboard store.

Randomness (`Array.prototype.sort` with a random comparator) is modelled by
an injected permutation: functions that shuffle receive either the already
permuted list or a shuffle function, and theorems quantify over all
permutations.  JavaScript numbers holding scores are modelled as `Int`
(score deltas are negative); ids, rounds and counters as `Nat`.
-/

namespace ChestGame

/-- Chest content tag, from `src/types.ts` (`enum ChestType`). -/
inductive ChestType where
  | TREASURE
  | EMPTY
  | TRAP
deriving DecidableEq

/-- Visible chest state, from `src/types.ts` (`enum ChestStatus`). -/
inductive ChestStatus where
  | CLOSED
  | REVEALED
  | OPENED
deriving DecidableEq

/-- A chest, from `src/types.ts` (`interface Chest`). -/
structure Chest where
  id : Nat
  type : ChestType
  status : ChestStatus
deriving DecidableEq

/-- Game phase, from `src/types.ts` (`enum GamePhase`). -/
inductive GamePhase where
  | START
  | SELECTION
  | REVEAL
  | DECISION
  | RESULT
  | GAME_OVER
deriving DecidableEq

/-- Outcome tag of a round, from `src/types.ts` (`'WIN' | 'LOSS' | 'EMPTY'`
in `interface RoundResult`). -/
inductive Outcome where
  | WIN
  | LOSS
  | EMPTY
deriving DecidableEq

/-- A per-round result record, from `src/types.ts` (`interface RoundResult`). -/
structure RoundResult where
  round : Nat
  outcome : Outcome
  scoreChange : Int
deriving DecidableEq

/-- The tracker state, from `src/types.ts` (`interface GameState`). -/
structure GameState where
  chests : List Chest
  selectedChestId : Option Nat
  phase : GamePhase
  score : Int
  round : Nat
  hintsUsed : Nat
  history : List String
  gameHistory : List RoundResult
  difficulty : Nat
deriving DecidableEq

/-- Modelled from the spec: `MAX_ROUNDS` lives in `src/constants.ts`, which is
not part of the provided sources; §4.4 of the spec fixes it at 5. -/
def MAX_ROUNDS : Nat := 5

/-- Modelled from the spec: `getChestCount` lives in `src/constants.ts`, which
is not part of the provided sources; §4.1 of the spec gives the chest count as
`N = min(9, 3 + floor((R-1)/2))`. -/
def getChestCount (round : Nat) : Nat := min 9 (3 + (round - 1) / 2)

/-- Modelled from the spec: `COST_PER_HINT` lives in `src/constants.ts`, which
is not part of the provided sources; the host message in `handleBuyHint`
(`src/App.tsx`) shows the value 30 ("(30 gold paid)"). -/
def COST_PER_HINT : Int := 30

/-- Trap count of a round: `Math.max(1, Math.floor(round / 1.5))` in
`initializeRound` (`src/App.tsx`).  For the natural numbers reachable as round
counters the double-precision quotient `round / 1.5` floors to
`floor(2 * round / 3)`, which is how the floor is expressed here. -/
def trapCount (round : Nat) : Nat := max 1 (2 * round / 3)

/-- Empty-chest count of a round: `count - treasureCount - trapCount` in
`initializeRound` (`src/App.tsx`) with `treasureCount = 1`.  The source
computes this as a JavaScript number; it is nonnegative for every round
`1 ≤ R ≤ MAX_ROUNDS` (for larger rounds `Array(e).fill` would throw, which the
spec lists as an unguarded open question). -/
def emptyCount (round : Nat) : Nat := getChestCount round - 1 - trapCount round

/-- The multiset of chest type tags built by `initializeRound`
(`src/App.tsx` lines 66-70) before shuffling: 1 TREASURE, `trapCount` TRAP,
`emptyCount` EMPTY. -/
def roundTypes (round : Nat) : List ChestType :=
  List.replicate 1 ChestType.TREASURE ++
    List.replicate (trapCount round) ChestType.TRAP ++
    List.replicate (emptyCount round) ChestType.EMPTY

/-- Id assignment of `initializeRound` (`src/App.tsx` lines 75-79): the
shuffled type tags receive sequential ids `1..N` in permuted order, all with
status CLOSED (`types.map((type, index) => ({id: index + 1, type, status:
CLOSED}))`). -/
def assignIds (types : List ChestType) : List Chest :=
  types.enum.map fun p => { id := p.1 + 1, type := p.2, status := ChestStatus.CLOSED }

/-- Round initialization, from `initializeRound` (`src/App.tsx` lines 58-101).
The random shuffle `types.sort(() => Math.random() - 0.5)` is modelled by
taking the already shuffled tag list as the `shuffled` argument; theorems
quantify over all permutations of `roundTypes round`. -/
def initializeRound (shuffled : List ChestType) (round : Nat) (score : Int)
    (existingHistory : List RoundResult) : GameState :=
  { chests := assignIds shuffled
    selectedChestId := none
    phase := GamePhase.SELECTION
    round := round
    score := score
    hintsUsed := 0
    history := []
    gameHistory := existingHistory
    difficulty := 1 }

/-- Number of chests of a given type in a chest list. -/
def countType (l : List Chest) (t : ChestType) : Nat :=
  l.countP fun c => c.type == t

/-- Number of REVEALED chests in a chest list. -/
def countRevealed (l : List Chest) : Nat :=
  l.countP fun c => c.status == ChestStatus.REVEALED

theorem assignIds_length (types : List ChestType) :
    (assignIds types).length = types.length := by
  simp [assignIds]

theorem assignIds_map_type (types : List ChestType) :
    (assignIds types).map Chest.type = types := by
  simp [assignIds, List.map_map]
  exact List.enum_map_snd types

theorem assignIds_map_id (types : List ChestType) :
    (assignIds types).map Chest.id = List.range' 1 types.length := by
  have h := List.enumFrom_map_fst 1 types
  rw [List.enumFrom_eq_map_enum, List.map_map] at h
  rw [assignIds, List.map_map]
  exact h

theorem assignIds_status (types : List ChestType) :
    ∀ c ∈ assignIds types, c.status = ChestStatus.CLOSED := by
  intro c hc
  simp only [assignIds, List.mem_map] at hc
  obtain ⟨p, _, rfl⟩ := hc
  rfl

theorem assignIds_countType (types : List ChestType) (t : ChestType) :
    countType (assignIds types) t = types.countP (fun ty => ty == t) := by
  have h := List.countP_map (fun ty => ty == t) Chest.type (assignIds types)
  rw [assignIds_map_type] at h
  rw [countType]
  exact h.symm

theorem roundTypes_countP (R : Nat) (h1 : 1 ≤ R) (h2 : R ≤ MAX_ROUNDS) :
    (roundTypes R).countP (fun ty => ty == ChestType.TREASURE) = 1 ∧
    (roundTypes R).countP (fun ty => ty == ChestType.TRAP) = trapCount R ∧
    (roundTypes R).countP (fun ty => ty == ChestType.EMPTY) =
      getChestCount R - 1 - trapCount R ∧
    (roundTypes R).length = getChestCount R := by
  simp only [MAX_ROUNDS] at h2
  interval_cases R <;> exact ⟨by decide, by decide, by decide, by decide⟩

/-- Claim C1: for every round `1 ≤ R ≤ MAX_ROUNDS` and every value of the
injected randomness, round initialization produces a chest sequence of length
`N = getChestCount R` with ids exactly `1..N`, exactly one TREASURE chest,
exactly `trapCount R` TRAP chests and `N - 1 - trapCount R` EMPTY chests, all
CLOSED; the state is in phase SELECTION with no selection, zero hints used,
the score passed in and the prior history carried over. -/
theorem claim_C1 (R : Nat) (score : Int) (hist : List RoundResult)
    (shuffled : List ChestType) (s : GameState)
    (hR1 : 1 ≤ R) (hR2 : R ≤ MAX_ROUNDS)
    (hshuf : shuffled.Perm (roundTypes R))
    (hs : s = initializeRound shuffled R score hist) :
    s.chests.length = getChestCount R ∧
    s.chests.map Chest.id = List.range' 1 (getChestCount R) ∧
    countType s.chests ChestType.TREASURE = 1 ∧
    countType s.chests ChestType.TRAP = trapCount R ∧
    countType s.chests ChestType.EMPTY = getChestCount R - 1 - trapCount R ∧
    (∀ c ∈ s.chests, c.status = ChestStatus.CLOSED) ∧
    s.phase = GamePhase.SELECTION ∧
    s.selectedChestId = none ∧
    s.hintsUsed = 0 ∧
    s.score = score ∧
    s.round = R ∧
    s.gameHistory = hist := by
  subst hs
  obtain ⟨hTre, hTrap, hEmp, hLen⟩ := roundTypes_countP R hR1 hR2
  have hlen : shuffled.length = getChestCount R := by
    rw [hshuf.length_eq, hLen]
  refine ⟨?_, ?_, ?_, ?_, ?_, ?_, rfl, rfl, rfl, rfl, rfl, rfl⟩
  · rw [show (initializeRound shuffled R score hist).chests = assignIds shuffled from rfl,
      assignIds_length, hlen]
  · rw [show (initializeRound shuffled R score hist).chests = assignIds shuffled from rfl,
      assignIds_map_id, hlen]
  · rw [show (initializeRound shuffled R score hist).chests = assignIds shuffled from rfl,
      assignIds_countType, hshuf.countP_eq, hTre]
  · rw [show (initializeRound shuffled R score hist).chests = assignIds shuffled from rfl,
      assignIds_countType, hshuf.countP_eq, hTrap]
  · rw [show (initializeRound shuffled R score hist).chests = assignIds shuffled from rfl,
      assignIds_countType, hshuf.countP_eq, hEmp]
  · exact assignIds_status shuffled

/-- Witness for claim C1 at round 1 with the identity permutation. -/
theorem claim_C1_witness :
    (initializeRound (roundTypes 1) 1 100 []).chests.length = getChestCount 1 ∧
    countType (initializeRound (roundTypes 1) 1 100 []).chests ChestType.TREASURE = 1 ∧
    (initializeRound (roundTypes 1) 1 100 []).phase = GamePhase.SELECTION := by
  obtain ⟨h1, _, h3, _, _, _, hphase, _⟩ :=
    claim_C1 1 100 [] (roundTypes 1) (initializeRound (roundTypes 1) 1 100 [])
      (by decide) (by decide) (List.Perm.refl _) rfl
  exact ⟨h1, h3, hphase⟩

/-- Forall₂ between a list and its image under a pointwise update. -/
theorem forall₂_map_self {α : Type} (r : α → α → Prop) (f : α → α) (l : List α)
    (h : ∀ a ∈ l, r a (f a)) : List.Forall₂ r l (l.map f) :=
  List.forall₂_map_right_iff.mpr (List.forall₂_same.mpr h)

/-- Score delta of a final decision, from the `if`/`else if`/`else` chain in
`handleFinalDecision` (`src/App.tsx` lines 164-176): TREASURE pays
`TREASURE_REWARD`, TRAP costs `TRAP_PENALTY`, EMPTY costs `EMPTY_PENALTY`.
The constants live in `src/constants.ts`, which is not part of the provided
sources, so they are passed as parameters. -/
def scoreChangeFor (treasureReward trapPenalty emptyPenalty : Int) :
    ChestType → Int
  | ChestType.TREASURE => treasureReward
  | ChestType.TRAP => -trapPenalty
  | ChestType.EMPTY => -emptyPenalty

/-- Outcome classification of a final decision, from the same chain in
`handleFinalDecision` (`src/App.tsx` lines 164-176). -/
def outcomeFor : ChestType → Outcome
  | ChestType.TREASURE => Outcome.WIN
  | ChestType.TRAP => Outcome.LOSS
  | ChestType.EMPTY => Outcome.EMPTY

/-- Instant part of `handleFinalDecision` (`src/App.tsx` lines 153-207):
guard on a truthy selection (`if (!gameState.selectedChestId) return`, so
`null` and the falsy id 0 bail out), look up the chest (`chests.find`), score
with a floor at zero, append the round result, open the chosen chest and move
to RESULT.  The delayed full reveal scheduled afterwards is modelled
separately as `delayedFullReveal`. -/
def handleFinalDecision (treasureReward trapPenalty emptyPenalty : Int)
    (s : GameState) : GameState :=
  match s.selectedChestId with
  | none => s
  | some sel =>
    if sel = 0 then s
    else
      match s.chests.find? (fun c => c.id == sel) with
      | none => s
      | some chest =>
        let scoreChange := scoreChangeFor treasureReward trapPenalty emptyPenalty chest.type
        let resultType := outcomeFor chest.type
        let newScore := max 0 (s.score + scoreChange)
        let roundResult : RoundResult :=
          { round := s.round, outcome := resultType, scoreChange := scoreChange }
        let chosenOpenedChests := s.chests.map fun c =>
          if c.id = sel then { c with status := ChestStatus.OPENED } else c
        { s with chests := chosenOpenedChests
                 score := newScore
                 phase := GamePhase.RESULT
                 gameHistory := s.gameHistory ++ [roundResult] }

/-- Delayed full-reveal transition scheduled by `handleFinalDecision`
(`src/App.tsx` lines 209-221): fires after a fixed delay with the trigger
round captured; discarded when the tracker's round moved on
(`if (prev.round !== round) return prev`), otherwise opens every chest and,
when the score is not positive (`prev.score <= 0`), moves to GAME_OVER. -/
def delayedFullReveal (triggerRound : Nat) (s : GameState) : GameState :=
  if s.round ≠ triggerRound then s
  else
    let fullyOpenedChests := s.chests.map fun c => { c with status := ChestStatus.OPENED }
    if s.score ≤ 0 then
      { s with chests := fullyOpenedChests, phase := GamePhase.GAME_OVER }
    else
      { s with chests := fullyOpenedChests }

/-- Next-round intent, from `handleNextRound` (`src/App.tsx` lines 224-232):
at `round >= MAX_ROUNDS` the phase becomes GAME_OVER, otherwise round
`round + 1` is initialized carrying the score and game history.  The shuffle
of the next round is injected as `shuffled`. -/
def handleNextRound (shuffled : List ChestType) (s : GameState) : GameState :=
  if s.round ≥ MAX_ROUNDS then { s with phase := GamePhase.GAME_OVER }
  else initializeRound shuffled (s.round + 1) s.score s.gameHistory

theorem handleFinalDecision_eq (treasureReward trapPenalty emptyPenalty : Int)
    (s : GameState) (sel : Nat) (chest : Chest)
    (hsel : s.selectedChestId = some sel) (hsel0 : sel ≠ 0)
    (hfind : s.chests.find? (fun c => c.id == sel) = some chest) :
    handleFinalDecision treasureReward trapPenalty emptyPenalty s =
      { s with
        chests := s.chests.map fun c =>
          if c.id = sel then { c with status := ChestStatus.OPENED } else c
        score := max 0 (s.score + scoreChangeFor treasureReward trapPenalty emptyPenalty chest.type)
        phase := GamePhase.RESULT
        gameHistory := s.gameHistory ++
          [{ round := s.round
             outcome := outcomeFor chest.type
             scoreChange := scoreChangeFor treasureReward trapPenalty emptyPenalty chest.type }] } := by
  simp only [handleFinalDecision, hsel, hfind, if_neg hsel0]

/-- Claim C3: a final decision on a selected chest present in the set
classifies the outcome by chest type (TREASURE → WIN with +TREASURE_REWARD,
TRAP → LOSS with −TRAP_PENALTY, EMPTY → EMPTY with −EMPTY_PENALTY), floors
the new score at zero, appends exactly one matching RoundResult, opens the
chosen chest leaving every other status unchanged, and moves to RESULT. -/
theorem claim_C3 (treasureReward trapPenalty emptyPenalty : Int)
    (s s' : GameState) (sel : Nat) (chest : Chest)
    (hsel : s.selectedChestId = some sel) (hsel0 : sel ≠ 0)
    (hfind : s.chests.find? (fun c => c.id == sel) = some chest)
    (hs : s' = handleFinalDecision treasureReward trapPenalty emptyPenalty s) :
    s'.phase = GamePhase.RESULT ∧
    s'.score = max 0 (s.score + scoreChangeFor treasureReward trapPenalty emptyPenalty chest.type) ∧
    0 ≤ s'.score ∧
    s'.gameHistory = s.gameHistory ++
      [{ round := s.round
         outcome := outcomeFor chest.type
         scoreChange := scoreChangeFor treasureReward trapPenalty emptyPenalty chest.type }] ∧
    (chest.type = ChestType.TREASURE →
      outcomeFor chest.type = Outcome.WIN ∧
      scoreChangeFor treasureReward trapPenalty emptyPenalty chest.type = treasureReward) ∧
    (chest.type = ChestType.TRAP →
      outcomeFor chest.type = Outcome.LOSS ∧
      scoreChangeFor treasureReward trapPenalty emptyPenalty chest.type = -trapPenalty) ∧
    (chest.type = ChestType.EMPTY →
      outcomeFor chest.type = Outcome.EMPTY ∧
      scoreChangeFor treasureReward trapPenalty emptyPenalty chest.type = -emptyPenalty) ∧
    List.Forall₂ (fun c c' => c'.id = c.id ∧ c'.type = c.type ∧
      c'.status = (if c.id = sel then ChestStatus.OPENED else c.status))
      s.chests s'.chests ∧
    s'.round = s.round ∧
    s'.selectedChestId = s.selectedChestId ∧
    s'.hintsUsed = s.hintsUsed := by
  subst hs
  rw [handleFinalDecision_eq treasureReward trapPenalty emptyPenalty s sel chest hsel hsel0 hfind]
  refine ⟨rfl, rfl, le_max_left 0 _, rfl, ?_, ?_, ?_, ?_, rfl, rfl, rfl⟩
  · intro h; rw [h]; exact ⟨rfl, rfl⟩
  · intro h; rw [h]; exact ⟨rfl, rfl⟩
  · intro h; rw [h]; exact ⟨rfl, rfl⟩
  · refine forall₂_map_self _ _ _ fun c _ => ?_
    by_cases h : c.id = sel <;> simp [h]

/-- A deterministic three-chest arrangement used as a concrete input by the
witnesses below: chest 1 TREASURE, chest 2 TRAP, chest 3 EMPTY, all CLOSED. -/
def exChests : List Chest :=
  [{ id := 1, type := ChestType.TREASURE, status := ChestStatus.CLOSED },
   { id := 2, type := ChestType.TRAP, status := ChestStatus.CLOSED },
   { id := 3, type := ChestType.EMPTY, status := ChestStatus.CLOSED }]

/-- A concrete tracker state used by the witnesses below: round 1 in phase
DECISION with chest 3 selected and a score of 100. -/
def exState : GameState :=
  { chests := exChests
    selectedChestId := some 3
    phase := GamePhase.DECISION
    score := 100
    round := 1
    hintsUsed := 0
    history := []
    gameHistory := []
    difficulty := 1 }

/-- Witness for claim C3: in `exState` the selected chest 3 is EMPTY, so the
decision lands in RESULT with the floored score. -/
theorem claim_C3_witness :
    (handleFinalDecision 100 50 10 exState).phase = GamePhase.RESULT ∧
    (handleFinalDecision 100 50 10 exState).score =
      max 0 (100 + scoreChangeFor 100 50 10 ChestType.EMPTY) := by
  obtain ⟨h1, h2, _⟩ :=
    claim_C3 100 50 10 exState (handleFinalDecision 100 50 10 exState) 3
      { id := 3, type := ChestType.EMPTY, status := ChestStatus.CLOSED }
      rfl (by decide) (by decide) rfl
  exact ⟨h1, h2⟩

/-- Claim C10: a final decision with no selection, or a selection that refers
to no chest in the set, leaves the state entirely unchanged. -/
theorem claim_C10 (treasureReward trapPenalty emptyPenalty : Int) (s : GameState) :
    (s.selectedChestId = none →
      handleFinalDecision treasureReward trapPenalty emptyPenalty s = s) ∧
    (∀ sel, s.selectedChestId = some sel →
      s.chests.find? (fun c => c.id == sel) = none →
      handleFinalDecision treasureReward trapPenalty emptyPenalty s = s) := by
  constructor
  · intro h
    simp [handleFinalDecision, h]
  · intro sel hsel hfind
    by_cases h0 : sel = 0
    · simp [handleFinalDecision, hsel, h0]
    · simp [handleFinalDecision, hsel, h0, hfind]

/-- Witness for claim C10: with no selection the decision handler is the
identity. -/
theorem claim_C10_witness :
    handleFinalDecision 100 50 10 { exState with selectedChestId := none } =
      { exState with selectedChestId := none } :=
  (claim_C10 100 50 10 { exState with selectedChestId := none }).1 rfl

/-- Claim C5: the delayed full reveal discards itself when the round moved on,
and otherwise opens every chest, keeps score, round and history, moves to
GAME_OVER exactly when the score is not positive, and does all of this for
every phase (the guard compares only the round). -/
theorem claim_C5 (R : Nat) (s s' : GameState)
    (hs : s' = delayedFullReveal R s) :
    (s.round ≠ R → s' = s) ∧
    (s.round = R →
      s'.chests = s.chests.map (fun c => { c with status := ChestStatus.OPENED }) ∧
      (∀ c ∈ s'.chests, c.status = ChestStatus.OPENED) ∧
      s'.score = s.score ∧
      s'.round = s.round ∧
      s'.gameHistory = s.gameHistory ∧
      (s.score = 0 → s'.phase = GamePhase.GAME_OVER) ∧
      (0 < s.score → s'.phase = s.phase)) := by
  have hstale : s.round ≠ R → delayedFullReveal R s = s := by
    intro h
    rw [delayedFullReveal, if_pos h]
  have hzero : s.round = R → s.score ≤ 0 → delayedFullReveal R s =
      { s with chests := s.chests.map fun c => { c with status := ChestStatus.OPENED }
               phase := GamePhase.GAME_OVER } := by
    intro h hsc
    rw [delayedFullReveal, if_neg (by simpa using h)]
    exact if_pos hsc
  have hpos : s.round = R → ¬ s.score ≤ 0 → delayedFullReveal R s =
      { s with chests := s.chests.map fun c => { c with status := ChestStatus.OPENED } } := by
    intro h hsc
    rw [delayedFullReveal, if_neg (by simpa using h)]
    exact if_neg hsc
  have hall : ∀ c ∈ s.chests.map (fun c => { c with status := ChestStatus.OPENED }),
      c.status = ChestStatus.OPENED := by
    intro c hc
    simp only [List.mem_map] at hc
    obtain ⟨a, _, rfl⟩ := hc
    rfl
  subst hs
  refine ⟨hstale, fun h => ?_⟩
  by_cases hsc : s.score ≤ 0
  · rw [hzero h hsc]
    exact ⟨rfl, hall, rfl, rfl, rfl, fun _ => rfl,
      fun hp => absurd hsc (not_le.mpr hp)⟩
  · rw [hpos h hsc]
    exact ⟨rfl, hall, rfl, rfl, rfl, fun hz => absurd (le_of_eq hz) hsc, fun _ => rfl⟩

/-- Witness for claim C5: a TRAP hit that left the score at zero fires the
delayed reveal in the same round and reaches GAME_OVER. -/
theorem claim_C5_witness :
    (delayedFullReveal 1 { exState with score := 0, phase := GamePhase.RESULT }).phase =
      GamePhase.GAME_OVER :=
  ((claim_C5 1 { exState with score := 0, phase := GamePhase.RESULT }
      (delayedFullReveal 1 { exState with score := 0, phase := GamePhase.RESULT })
      rfl).2 rfl).2.2.2.2.2.1 rfl

/-- Claim C6: from RESULT, the next-round intent moves to GAME_OVER when the
round equals MAX_ROUNDS, touching nothing else, and otherwise initializes
round R+1 in SELECTION carrying score and history. -/
theorem claim_C6 (shuffled : List ChestType) (s s' : GameState)
    (_hphase : s.phase = GamePhase.RESULT)
    (hs : s' = handleNextRound shuffled s) :
    (s.round = MAX_ROUNDS →
      s' = { s with phase := GamePhase.GAME_OVER } ∧
      s'.score = s.score ∧ s'.round = s.round ∧ s'.gameHistory = s.gameHistory) ∧
    (s.round < MAX_ROUNDS →
      s' = initializeRound shuffled (s.round + 1) s.score s.gameHistory ∧
      s'.phase = GamePhase.SELECTION ∧
      s'.round = s.round + 1 ∧
      s'.score = s.score ∧
      s'.gameHistory = s.gameHistory) := by
  subst hs
  constructor
  · intro h
    have hge : s.round ≥ MAX_ROUNDS := le_of_eq h.symm
    have heq : handleNextRound shuffled s = { s with phase := GamePhase.GAME_OVER } := by
      rw [handleNextRound, if_pos hge]
    rw [heq]
    exact ⟨rfl, rfl, rfl, rfl⟩
  · intro h
    have hlt : ¬ s.round ≥ MAX_ROUNDS := not_le.mpr h
    have heq : handleNextRound shuffled s =
        initializeRound shuffled (s.round + 1) s.score s.gameHistory := by
      rw [handleNextRound, if_neg hlt]
    rw [heq]
    exact ⟨rfl, rfl, rfl, rfl, rfl⟩

/-- Witness for claim C6: finishing round 5 moves straight to GAME_OVER. -/
theorem claim_C6_witness :
    handleNextRound [] { exState with round := 5, phase := GamePhase.RESULT } =
      { exState with round := 5, phase := GamePhase.GAME_OVER } :=
  ((claim_C6 [] { exState with round := 5, phase := GamePhase.RESULT }
      (handleNextRound [] { exState with round := 5, phase := GamePhase.RESULT })
      rfl rfl).1 rfl).1

/-- Staleness guard for advisory flavor text, from `safeSetHostMessage`
(`src/App.tsx` lines 51-55): the resolved text replaces the displayed host
message only when the tracker's current round and phase (read from
`currentRoundRef`/`currentPhaseRef` at resolution time) both equal the
dispatch tag. -/
def safeSetHostMessage (currentRound : Nat) (currentPhase : GamePhase)
    (text : String) (intendedRound : Nat) (intendedPhase : GamePhase)
    (hostMessage : String) : String :=
  if currentRound = intendedRound ∧ currentPhase = intendedPhase then text
  else hostMessage

/-- Staleness guard of the hint resolution, from `handleBuyHint`
(`src/App.tsx` lines 248-254): the hint text is shown only when the tracker is
still on the dispatch-time round and in phase DECISION (the dispatch-time
phase, since buying a hint happens in DECISION and does not change phase). -/
def hintResolution (currentRound : Nat) (currentPhase : GamePhase)
    (dispatchRound : Nat) (hintText : String) (hostMessage : String) : String :=
  if currentRound = dispatchRound ∧ currentPhase = GamePhase.DECISION then
    "Hint: \"" ++ hintText ++ "\""
  else hostMessage

/-- Claim C4: an advisory-text resolution tagged (round R, phase P) is applied
exactly when the tracker's current round is R and current phase is P, and
leaves the displayed message unchanged otherwise; the hint resolution, tagged
(dispatch round, DECISION), obeys the same guard. -/
theorem claim_C4 (currentRound intendedRound : Nat)
    (currentPhase intendedPhase : GamePhase) (text hintText hostMessage : String) :
    (currentRound = intendedRound ∧ currentPhase = intendedPhase →
      safeSetHostMessage currentRound currentPhase text intendedRound intendedPhase
        hostMessage = text) ∧
    (¬(currentRound = intendedRound ∧ currentPhase = intendedPhase) →
      safeSetHostMessage currentRound currentPhase text intendedRound intendedPhase
        hostMessage = hostMessage) ∧
    (currentRound = intendedRound ∧ currentPhase = GamePhase.DECISION →
      hintResolution currentRound currentPhase intendedRound hintText hostMessage =
        "Hint: \"" ++ hintText ++ "\"") ∧
    (¬(currentRound = intendedRound ∧ currentPhase = GamePhase.DECISION) →
      hintResolution currentRound currentPhase intendedRound hintText hostMessage =
        hostMessage) := by
  refine ⟨fun h => ?_, fun h => ?_, fun h => ?_, fun h => ?_⟩
  · rw [safeSetHostMessage, if_pos h]
  · rw [safeSetHostMessage, if_neg h]
  · rw [hintResolution, if_pos h]
  · rw [hintResolution, if_neg h]

/-- Witness for claim C4: a response tagged for round 1 is applied while the
tracker is still at (1, SELECTION) and dropped once it reached round 2. -/
theorem claim_C4_witness :
    safeSetHostMessage 1 GamePhase.SELECTION "fresh" 1 GamePhase.SELECTION "old" =
      "fresh" ∧
    safeSetHostMessage 2 GamePhase.SELECTION "stale" 1 GamePhase.SELECTION "old" =
      "old" :=
  ⟨(claim_C4 1 1 GamePhase.SELECTION GamePhase.SELECTION "fresh" "h" "old").1
      ⟨rfl, rfl⟩,
   (claim_C4 2 1 GamePhase.SELECTION GamePhase.SELECTION "stale" "h" "old").2.1
      (by simp)⟩

/-- Buy-hint handler, from `handleBuyHint` (`src/App.tsx` lines 234-255):
bails out when the score cannot cover the hint or no chest is selected
(`if (gameState.score < COST_PER_HINT || !gameState.selectedChestId) return`,
where the falsy id 0 also bails), otherwise deducts the cost and increments
`hintsUsed`; nothing else of the tracker state changes. -/
def handleBuyHint (s : GameState) : GameState :=
  if s.score < COST_PER_HINT then s
  else
    match s.selectedChestId with
    | none => s
    | some sel =>
      if sel = 0 then s
      else { s with score := s.score - COST_PER_HINT, hintsUsed := s.hintsUsed + 1 }

/-- The buy-hint intent as dispatchable from the UI: `src/App.tsx` renders the
hint button (with `onClick={handleBuyHint}`) only inside the
`gameState.phase === GamePhase.DECISION` block (lines 554-576), so the intent
fires the handler only from phase DECISION and is a no-op otherwise. -/
def buyHintIntent (s : GameState) : GameState :=
  if s.phase = GamePhase.DECISION then handleBuyHint s else s

/-- Claim C7: the buy-hint intent is accepted only from phase DECISION, only
with score at least COST_PER_HINT and a current selection; on acceptance it
deducts exactly COST_PER_HINT, increments hintsUsed and changes nothing else
(in particular not the phase); any failed precondition makes it a no-op. -/
theorem claim_C7 (s s' : GameState) (hs : s' = buyHintIntent s) :
    (s.phase ≠ GamePhase.DECISION → s' = s) ∧
    (s.score < COST_PER_HINT → s' = s) ∧
    (s.selectedChestId = none → s' = s) ∧
    (∀ sel, s.phase = GamePhase.DECISION → s.selectedChestId = some sel →
      sel ≠ 0 → COST_PER_HINT ≤ s.score →
      s' = { s with score := s.score - COST_PER_HINT, hintsUsed := s.hintsUsed + 1 }) := by
  subst hs
  refine ⟨fun h => ?_, fun h => ?_, fun h => ?_, fun sel hph hsel hsel0 hsc => ?_⟩
  · rw [buyHintIntent, if_neg h]
  · by_cases hph : s.phase = GamePhase.DECISION
    · rw [buyHintIntent, if_pos hph, handleBuyHint, if_pos h]
    · rw [buyHintIntent, if_neg hph]
  · by_cases hph : s.phase = GamePhase.DECISION
    · by_cases hsc : s.score < COST_PER_HINT
      · rw [buyHintIntent, if_pos hph, handleBuyHint, if_pos hsc]
      · rw [buyHintIntent, if_pos hph, handleBuyHint, if_neg hsc, h]
    · rw [buyHintIntent, if_neg hph]
  · rw [buyHintIntent, if_pos hph, handleBuyHint, if_neg (not_lt.mpr hsc), hsel]
    exact if_neg hsel0

/-- Witness for claim C7: buying a hint in `exState` (DECISION, score 100,
chest 3 selected) deducts 30 and counts one hint. -/
theorem claim_C7_witness :
    buyHintIntent exState =
      { exState with score := 100 - COST_PER_HINT, hintsUsed := 1 } :=
  (claim_C7 exState (buyHintIntent exState) rfl).2.2.2 3 rfl rfl
    (by decide) (by decide)

/-- Chest-selection handler, from `handleSelectChest` (`src/App.tsx` lines
109-116): in phase SELECTION or DECISION the given id becomes the selected
chest id; in every other phase the state is unchanged. -/
def handleSelectChest (id : Nat) (s : GameState) : GameState :=
  if s.phase = GamePhase.SELECTION ∨ s.phase = GamePhase.DECISION then
    { s with selectedChestId := some id }
  else s

/-- The select-chest intent as dispatchable from the UI: the grid in
`src/App.tsx` (lines 519-533) renders one `ChestItem` per chest of
`gameState.chests` with `onClick={() => handleSelectChest(chest.id)}` and
`disabled={gameState.phase === GamePhase.RESULT}`, and `ChestItem`
(`src/components/ChestItem.tsx` line 57) attaches that handler only when
`!disabled && chest.status === ChestStatus.CLOSED`.  A click on a rendered
chest therefore reaches the handler only for a CLOSED chest outside RESULT. -/
def clickChest (c : Chest) (s : GameState) : GameState :=
  if s.phase ≠ GamePhase.RESULT ∧ c.status = ChestStatus.CLOSED then
    handleSelectChest c.id s
  else s

/-- Claim C8: clicking a chest of the current set either leaves the state
unchanged or, in phase SELECTION or DECISION and only for a CLOSED chest,
sets the selected id to that chest's id; in every phase other than SELECTION
and DECISION the click changes nothing, and whenever the selected id changes
it names a CLOSED chest of the current set. -/
theorem claim_C8 (c : Chest) (s s' : GameState)
    (hc : c ∈ s.chests) (hs : s' = clickChest c s) :
    (s' = s ∨
      ((s.phase = GamePhase.SELECTION ∨ s.phase = GamePhase.DECISION) ∧
        c.status = ChestStatus.CLOSED ∧
        s' = { s with selectedChestId := some c.id })) ∧
    (s.phase ≠ GamePhase.SELECTION ∧ s.phase ≠ GamePhase.DECISION → s' = s) ∧
    (∀ i, s'.selectedChestId = some i → s.selectedChestId ≠ some i →
      ∃ c' ∈ s.chests, c'.id = i ∧ c'.status = ChestStatus.CLOSED) := by
  subst hs
  by_cases hgate : s.phase ≠ GamePhase.RESULT ∧ c.status = ChestStatus.CLOSED
  · by_cases hph : s.phase = GamePhase.SELECTION ∨ s.phase = GamePhase.DECISION
    · have heq : clickChest c s = { s with selectedChestId := some c.id } := by
        rw [clickChest, if_pos hgate, handleSelectChest, if_pos hph]
      refine ⟨Or.inr ⟨hph, hgate.2, heq⟩, fun hother => ?_, fun i hi hne => ?_⟩
      · rcases hph with h | h
        · exact absurd h hother.1
        · exact absurd h hother.2
      · rw [heq] at hi
        have hci : some c.id = some i := hi
        exact ⟨c, hc, Option.some.inj hci, hgate.2⟩
    · have heq : clickChest c s = s := by
        rw [clickChest, if_pos hgate, handleSelectChest, if_neg hph]
      exact ⟨Or.inl heq, fun _ => heq,
        fun i hi hne => absurd (by rw [heq] at hi; exact hi) hne⟩
  · have heq : clickChest c s = s := by
      rw [clickChest, if_neg hgate]
    exact ⟨Or.inl heq, fun _ => heq,
      fun i hi hne => absurd (by rw [heq] at hi; exact hi) hne⟩

/-- Witness for claim C8: clicking CLOSED chest 1 of `exState` (phase
DECISION) re-selects it. -/
theorem claim_C8_witness :
    clickChest { id := 1, type := ChestType.TREASURE, status := ChestStatus.CLOSED }
        exState = exState ∨
      ((exState.phase = GamePhase.SELECTION ∨ exState.phase = GamePhase.DECISION) ∧
        (ChestStatus.CLOSED : ChestStatus) = ChestStatus.CLOSED ∧
        clickChest { id := 1, type := ChestType.TREASURE, status := ChestStatus.CLOSED }
            exState = { exState with selectedChestId := some 1 }) :=
  (claim_C8 { id := 1, type := ChestType.TREASURE, status := ChestStatus.CLOSED }
    exState _ (by decide) rfl).1

/-- Reveal candidates, from `handleConfirmSelection` (`src/App.tsx` lines
124-128): the CLOSED chests other than the selected one and other than any
TREASURE chest (`chests.filter(c => c.id !== selectedChestId && c.type !==
TREASURE && c.status === CLOSED)`). -/
def availableToReveal (chests : List Chest) (sel : Nat) : List Chest :=
  chests.filter fun c =>
    (c.id != sel) && (c.type != ChestType.TREASURE) && (c.status == ChestStatus.CLOSED)

/-- Confirm-selection intent, from `handleConfirmSelection` (`src/App.tsx`
lines 118-151): bail out on a falsy selection, compute the reveal candidates,
reveal `max(1, floor(candidates/2))` of them chosen by a random shuffle
(modelled by the injected `shuffle` function, quantified over all
permutations), and move to DECISION. -/
def handleConfirmSelection (shuffle : List Chest → List Chest) (s : GameState) :
    GameState :=
  match s.selectedChestId with
  | none => s
  | some sel =>
    if sel = 0 then s
    else
      let available := availableToReveal s.chests sel
      let numToReveal := max 1 (available.length / 2)
      let toReveal := (shuffle available).take numToReveal
      let revealIds := toReveal.map Chest.id
      let updatedChests := s.chests.map fun c =>
        if c.id ∈ revealIds then { c with status := ChestStatus.REVEALED } else c
      { s with chests := updatedChests, phase := GamePhase.DECISION }

theorem mem_availableToReveal {chests : List Chest} {sel : Nat} {c : Chest} :
    c ∈ availableToReveal chests sel ↔
      c ∈ chests ∧ c.id ≠ sel ∧ c.type ≠ ChestType.TREASURE ∧
        c.status = ChestStatus.CLOSED := by
  simp [availableToReveal, List.mem_filter, and_assoc]

theorem countP_add_of_disjoint {α : Type} (p q : α → Bool) (l : List α)
    (h : ∀ a ∈ l, ¬(p a = true ∧ q a = true)) :
    l.countP (fun a => p a || q a) = l.countP p + l.countP q := by
  induction l with
  | nil => rfl
  | cons a t ih =>
    have ha := h a (List.mem_cons_self a t)
    have ht : ∀ x ∈ t, ¬(p x = true ∧ q x = true) :=
      fun x hx => h x (List.mem_cons_of_mem a hx)
    simp only [List.countP_cons, ih ht]
    cases hp : p a <;> cases hq : q a <;> simp [hp, hq] at ha ⊢ <;> omega

theorem countP_mem_eq_length {α β : Type} [DecidableEq β] (l : List α)
    (f : α → β) (r : List β) (hl : (l.map f).Nodup) (hr : r.Nodup)
    (hsub : ∀ b ∈ r, b ∈ l.map f) :
    l.countP (fun a => decide (f a ∈ r)) = r.length := by
  have h1 : l.countP (fun a => decide (f a ∈ r)) =
      (l.map f).countP (fun b => decide (b ∈ r)) :=
    (List.countP_map (fun b => decide (b ∈ r)) f l).symm
  rw [h1, List.countP_eq_length_filter]
  have hperm : List.Perm ((l.map f).filter (fun b => decide (b ∈ r))) r := by
    refine (List.perm_ext_iff_of_nodup (hl.filter _) hr).mpr fun b => ?_
    simp only [List.mem_filter, decide_eq_true_eq]
    exact ⟨fun hb => hb.2, fun hb => ⟨hsub b hb, hb⟩⟩
  exact hperm.length_eq

theorem handleConfirmSelection_eq (shuffle : List Chest → List Chest)
    (s : GameState) (sel : Nat)
    (hsel : s.selectedChestId = some sel) (hsel0 : sel ≠ 0) :
    handleConfirmSelection shuffle s =
      { s with
        chests := s.chests.map fun c =>
          if c.id ∈ ((shuffle (availableToReveal s.chests sel)).take
              (max 1 ((availableToReveal s.chests sel).length / 2))).map Chest.id
          then { c with status := ChestStatus.REVEALED } else c
        phase := GamePhase.DECISION } := by
  simp only [handleConfirmSelection, hsel, if_neg hsel0]

/-- Claim C2: a confirmed selection referencing a chest of the set (ids
unique per the data model) moves to DECISION and only turns CLOSED,
non-TREASURE, non-selected chests to REVEALED, never touching the selected
chest or the TREASURE chest; when at least one candidate exists, exactly
`max(1, floor(candidates/2))` chests become REVEALED; everything else of the
state is unchanged. -/
theorem claim_C2 (shuffle : List Chest → List Chest) (s s' : GameState)
    (sel : Nat)
    (hshuffle : ∀ l, (shuffle l).Perm l)
    (hsel : s.selectedChestId = some sel) (hsel0 : sel ≠ 0)
    (_hmem : ∃ c ∈ s.chests, c.id = sel)
    (hnodup : (s.chests.map Chest.id).Nodup)
    (hs : s' = handleConfirmSelection shuffle s) :
    s'.phase = GamePhase.DECISION ∧
    List.Forall₂ (fun c c' => c'.id = c.id ∧ c'.type = c.type ∧
      (c'.status = c.status ∨
        (c.status = ChestStatus.CLOSED ∧ c'.status = ChestStatus.REVEALED ∧
          c.type ≠ ChestType.TREASURE ∧ c.id ≠ sel))) s.chests s'.chests ∧
    (1 ≤ (availableToReveal s.chests sel).length →
      countRevealed s'.chests =
        countRevealed s.chests + max 1 ((availableToReveal s.chests sel).length / 2)) ∧
    s'.score = s.score ∧
    s'.round = s.round ∧
    s'.selectedChestId = s.selectedChestId ∧
    s'.gameHistory = s.gameHistory ∧
    s'.hintsUsed = s.hintsUsed := by
  subst hs
  rw [handleConfirmSelection_eq shuffle s sel hsel hsel0]
  set A := availableToReveal s.chests sel with hA
  set k := max 1 (A.length / 2) with hk
  set T := (shuffle A).take k with hT
  set revealIds := T.map Chest.id with hR
  have hTsubA : ∀ x ∈ T, x ∈ A := fun x hx =>
    (hshuffle A).mem_iff.mp (List.take_subset k (shuffle A) hx)
  have hAprops : ∀ x ∈ A, x ∈ s.chests ∧ x.id ≠ sel ∧
      x.type ≠ ChestType.TREASURE ∧ x.status = ChestStatus.CLOSED :=
    fun x hx => mem_availableToReveal.mp hx
  have hAnodup : (A.map Chest.id).Nodup :=
    hnodup.sublist ((List.filter_sublist s.chests).map Chest.id)
  have hRnodup : revealIds.Nodup := by
    have hSA : ((shuffle A).map Chest.id).Nodup :=
      ((hshuffle A).map Chest.id).nodup_iff.mpr hAnodup
    exact hSA.sublist ((List.take_sublist k (shuffle A)).map Chest.id)
  have hRsub : ∀ i ∈ revealIds, i ∈ s.chests.map Chest.id := by
    intro i hi
    rw [hR, List.mem_map] at hi
    obtain ⟨x, hx, rfl⟩ := hi
    exact List.mem_map_of_mem Chest.id (hAprops x (hTsubA x hx)).1
  have hUnique : ∀ c ∈ s.chests, c.id ∈ revealIds →
      c.status = ChestStatus.CLOSED ∧ c.type ≠ ChestType.TREASURE ∧ c.id ≠ sel := by
    intro c hc hid
    rw [hR, List.mem_map] at hid
    obtain ⟨x, hx, hxid⟩ := hid
    obtain ⟨hxchests, hxsel, hxtre, hxclosed⟩ := hAprops x (hTsubA x hx)
    have hxc : x = c := List.inj_on_of_nodup_map hnodup hxchests hc hxid
    subst hxc
    exact ⟨hxclosed, hxtre, hxsel⟩
  refine ⟨rfl, ?_, ?_, rfl, rfl, rfl, rfl, rfl⟩
  · refine forall₂_map_self _ _ _ fun c hc => ?_
    by_cases h : c.id ∈ revealIds
    · obtain ⟨hclosed, htre, hsel'⟩ := hUnique c hc h
      rw [if_pos h]
      exact ⟨rfl, rfl, Or.inr ⟨hclosed, rfl, htre, hsel'⟩⟩
    · rw [if_neg h]
      exact ⟨rfl, rfl, Or.inl rfl⟩
  · intro hA1
    have hkA : k ≤ A.length := by
      rw [hk]
      have := Nat.div_le_self A.length 2
      omega
    have hRlen : revealIds.length = k := by
      rw [hR, List.length_map, hT, List.length_take, (hshuffle A).length_eq]
      omega
    have hcount : countRevealed (s.chests.map fun c =>
        if c.id ∈ revealIds then { c with status := ChestStatus.REVEALED } else c) =
        s.chests.countP (fun c =>
          decide (c.id ∈ revealIds) || (c.status == ChestStatus.REVEALED)) := by
      rw [countRevealed, List.countP_map]
      refine List.countP_congr fun c _ => ?_
      by_cases h : c.id ∈ revealIds <;> simp [h]
    have hdisj : ∀ c ∈ s.chests,
        ¬(decide (c.id ∈ revealIds) = true ∧ (c.status == ChestStatus.REVEALED) = true) := by
      rintro c hc ⟨h1, h2⟩
      have hcl := (hUnique c hc (of_decide_eq_true h1)).1
      rw [hcl] at h2
      exact absurd h2 (by decide)
    have hmemc : s.chests.countP (fun c => decide (c.id ∈ revealIds)) = k := by
      rw [countP_mem_eq_length s.chests Chest.id revealIds hnodup hRnodup hRsub, hRlen]
    rw [hcount, countP_add_of_disjoint _ _ _ hdisj, hmemc, countRevealed]
    omega

/-- Witness for claim C2: confirming chest 3 in `exState` (moved back to
SELECTION) reveals exactly one chest, the lone candidate chest 2. -/
theorem claim_C2_witness :
    (handleConfirmSelection id { exState with phase := GamePhase.SELECTION }).phase =
      GamePhase.DECISION ∧
    countRevealed (handleConfirmSelection id
        { exState with phase := GamePhase.SELECTION }).chests =
      countRevealed exChests +
        max 1 ((availableToReveal exChests 3).length / 2) := by
  obtain ⟨h1, _, h3, _⟩ :=
    claim_C2 id { exState with phase := GamePhase.SELECTION }
      (handleConfirmSelection id { exState with phase := GamePhase.SELECTION }) 3
      (fun l => List.Perm.refl l) rfl (by decide)
      ⟨{ id := 3, type := ChestType.EMPTY, status := ChestStatus.CLOSED },
        by decide, rfl⟩
      (by decide) rfl
  exact ⟨h1, h3 (by decide)⟩

/-- A leaderboard entry, from `src/types.ts` (`interface LeaderboardEntry`);
`id` is filled with a timestamp string and `date` with a formatted date. -/
structure LeaderboardEntry where
  id : String
  name : String
  score : Int
  date : String
deriving DecidableEq

/-- Whitespace test backing the trim in `handleSaveScore`
(`playerName.trim()` in `src/App.tsx`); JavaScript strips the usual ASCII
whitespace and line terminators from both ends. -/
def jsWhitespace (ch : Char) : Bool :=
  ch == ' ' || ch == '\t' || ch == '\n' || ch == '\r'

/-- The `String.prototype.trim` used by `handleSaveScore`: drop whitespace
from both ends of the string. -/
def jsTrim (str : String) : String :=
  String.mk (((str.data.dropWhile jsWhitespace).reverse.dropWhile jsWhitespace).reverse)

/-- Stable descending insertion used to model
`.sort((a, b) => b.score - a.score)` in `handleSaveScore` (`src/App.tsx`
line 268): a stable sort keyed descending by score. -/
def insertEntryDesc (e : LeaderboardEntry) :
    List LeaderboardEntry → List LeaderboardEntry
  | [] => [e]
  | x :: xs =>
    if x.score ≤ e.score then e :: x :: xs else x :: insertEntryDesc e xs

/-- Stable descending sort by score modelling the JavaScript sort call in
`handleSaveScore`. -/
def sortDesc : List LeaderboardEntry → List LeaderboardEntry
  | [] => []
  | x :: xs => insertEntryDesc x (sortDesc xs)

/-- The React states touched by `handleSaveScore` (`src/App.tsx` lines
257-280): the typed player name (bounded to 12 characters by the input's
`maxLength={12}`, line 459), the final score, the one-shot `scoreSaved` flag
and the stored leaderboard. -/
structure SaveScoreState where
  playerName : String
  score : Int
  scoreSaved : Bool
  leaderboard : List LeaderboardEntry
deriving DecidableEq

/-- Save-score intent, from `handleSaveScore` (`src/App.tsx` lines 257-280):
bail out when the trimmed name is empty or a save already happened
(`if (!playerName.trim() || scoreSaved) return`), otherwise append the new
entry, re-sort descending by score, keep the top 50, and set the idempotency
flag.  The timestamp id and formatted date are injected as `now`/`date`; the
deferred phase reset and sidebar toggle are presentation-only and not part of
this state. -/
def handleSaveScore (now date : String) (st : SaveScoreState) : SaveScoreState :=
  if jsTrim st.playerName = "" ∨ st.scoreSaved = true then st
  else
    let newEntry : LeaderboardEntry :=
      { id := now, name := jsTrim st.playerName, score := st.score, date := date }
    let updatedLeaderboard := (sortDesc (st.leaderboard ++ [newEntry])).take 50
    { st with leaderboard := updatedLeaderboard, scoreSaved := true }

theorem jsTrim_length_le (str : String) : (jsTrim str).length ≤ str.length := by
  show (((str.data.dropWhile jsWhitespace).reverse.dropWhile jsWhitespace).reverse).length ≤
    str.data.length
  rw [List.length_reverse]
  calc ((str.data.dropWhile jsWhitespace).reverse.dropWhile jsWhitespace).length
      ≤ (str.data.dropWhile jsWhitespace).reverse.length :=
        (List.dropWhile_sublist _).length_le
    _ = (str.data.dropWhile jsWhitespace).length := List.length_reverse _
    _ ≤ str.data.length := (List.dropWhile_sublist _).length_le

theorem mem_insertEntryDesc {e x : LeaderboardEntry} {l : List LeaderboardEntry} :
    x ∈ insertEntryDesc e l ↔ x = e ∨ x ∈ l := by
  induction l with
  | nil => simp [insertEntryDesc]
  | cons a t ih =>
    by_cases h : a.score ≤ e.score
    · simp [insertEntryDesc, h]
    · simp [insertEntryDesc, h, ih]
      tauto

theorem pairwise_insertEntryDesc (e : LeaderboardEntry) (l : List LeaderboardEntry)
    (h : List.Pairwise (fun a b => b.score ≤ a.score) l) :
    List.Pairwise (fun a b => b.score ≤ a.score) (insertEntryDesc e l) := by
  induction l with
  | nil => simp [insertEntryDesc]
  | cons x xs ih =>
    rcases List.pairwise_cons.mp h with ⟨hx, hxs⟩
    by_cases hc : x.score ≤ e.score
    · rw [insertEntryDesc, if_pos hc]
      refine List.pairwise_cons.mpr ⟨?_, h⟩
      intro y hy
      rcases List.mem_cons.mp hy with rfl | hy
      · exact hc
      · exact le_trans (hx y hy) hc
    · rw [insertEntryDesc, if_neg hc]
      refine List.pairwise_cons.mpr ⟨?_, ih hxs⟩
      intro y hy
      rcases mem_insertEntryDesc.mp hy with rfl | hy
      · exact le_of_lt (not_le.mp hc)
      · exact hx y hy

theorem sortDesc_pairwise (l : List LeaderboardEntry) :
    List.Pairwise (fun a b => b.score ≤ a.score) (sortDesc l) := by
  induction l with
  | nil => exact List.Pairwise.nil
  | cons x xs ih => exact pairwise_insertEntryDesc x (sortDesc xs) ih

/-- Claim C9: the save-score intent never appends twice within a game-over
(the flag makes any second invocation a no-op), accepts only a name that is
non-empty after trimming (and, through the input's 12-character bound, at
most 12 characters long), and leaves the stored collection sorted descending
by score with at most 50 entries. -/
theorem claim_C9 (now date : String) (st : SaveScoreState)
    (hlen : st.playerName.length ≤ 12) :
    (st.scoreSaved = true → handleSaveScore now date st = st) ∧
    (jsTrim st.playerName = "" → handleSaveScore now date st = st) ∧
    handleSaveScore now date (handleSaveScore now date st) =
      handleSaveScore now date st ∧
    (jsTrim st.playerName ≠ "" → st.scoreSaved = false →
      (handleSaveScore now date st).leaderboard =
        (sortDesc (st.leaderboard ++
          [{ id := now, name := jsTrim st.playerName, score := st.score,
             date := date }])).take 50 ∧
      (handleSaveScore now date st).scoreSaved = true ∧
      (handleSaveScore now date st).leaderboard.length ≤ 50 ∧
      List.Pairwise (fun a b => b.score ≤ a.score)
        (handleSaveScore now date st).leaderboard ∧
      (jsTrim st.playerName).length ≤ 12) := by
  have hsaved : ∀ st2 : SaveScoreState, st2.scoreSaved = true →
      handleSaveScore now date st2 = st2 := by
    intro st2 h2
    rw [handleSaveScore, if_pos (Or.inr h2)]
  have hempty : jsTrim st.playerName = "" → handleSaveScore now date st = st := by
    intro h
    rw [handleSaveScore, if_pos (Or.inl h)]
  have hsucc : jsTrim st.playerName ≠ "" → st.scoreSaved = false →
      handleSaveScore now date st =
        { st with
          leaderboard := (sortDesc (st.leaderboard ++
            [{ id := now, name := jsTrim st.playerName, score := st.score,
               date := date }])).take 50
          scoreSaved := true } := by
    intro h1 h2
    rw [handleSaveScore, if_neg]
    rintro (h | h)
    · exact h1 h
    · rw [h2] at h; exact Bool.false_ne_true h
  refine ⟨hsaved st, hempty, ?_, fun h1 h2 => ?_⟩
  · by_cases hg : jsTrim st.playerName = "" ∨ st.scoreSaved = true
    · have hid : handleSaveScore now date st = st := by
        rw [handleSaveScore, if_pos hg]
      rw [hid]
      exact hid
    · push_neg at hg
      rw [hsucc hg.1 (Bool.not_eq_true _ ▸ hg.2)]
      exact hsaved _ rfl
  · rw [hsucc h1 h2]
    refine ⟨rfl, rfl, ?_, ?_, ?_⟩
    · rw [List.length_take]
      exact Nat.min_le_left _ _
    · exact List.Pairwise.sublist (List.take_sublist _ _) (sortDesc_pairwise _)
    · exact le_trans (jsTrim_length_le st.playerName) hlen

/-- Witness for claim C9: saving the name "Hero" with score 100 into an empty
leaderboard sets the flag and stores at most 50 entries sorted descending. -/
theorem claim_C9_witness :
    (handleSaveScore "t0" "2024-01-01"
      { playerName := "Hero", score := 100, scoreSaved := false,
        leaderboard := [] }).scoreSaved = true ∧
    (handleSaveScore "t0" "2024-01-01"
      { playerName := "Hero", score := 100, scoreSaved := false,
        leaderboard := [] }).leaderboard.length ≤ 50 := by
  obtain ⟨-, -, -, hsucc⟩ :=
    claim_C9 "t0" "2024-01-01"
      { playerName := "Hero", score := 100, scoreSaved := false, leaderboard := [] }
      (by decide)
  obtain ⟨-, hflag, hlen, -, -⟩ := hsucc (by decide) rfl
  exact ⟨hflag, hlen⟩

end ChestGame
